import Mathlib

/-!
Verification of the real-time audio bridge of the AiVoiceCalling server
(WhatsApp ↔ ElevenLabs). The definitions below are shallow embeddings of
the JavaScript source:

* configuration constants from `src/config/audio.config.js`;
* the capture path (`audioSink.ondata` and `sendAudioToElevenLabs` in the
  audio-bridge module): downsampling by decimation, byte accumulation and
  chunked sends;
* the playback path (`addToPlaybackBuffer`, `startAudioPlayback`,
  `resetPlayback` in the audio-playback module): a FIFO sample buffer
  drained in fixed-size frames by a 10 ms interval timer;
* the ingest handler (`handleElevenLabsAudio` in
  `src/handlers/elevenlabs.handler.js`): odd-byte truncation, sub-sample
  discard, passthrough append;
* the legacy upsampler (`handleElevenLabsAudio` in `server-elevenlabs.js`):
  linear interpolation from 16 kHz to 48 kHz.

Machine integers are modelled as `Int` (samples are 16-bit signed values),
byte strings as `List Nat`, and the JavaScript float computation
`Math.round(s1 * (1-t) + s2 * t)` as exact rational arithmetic.
-/

namespace AudioBridge

/-- `WHATSAPP_SAMPLE_RATE` from `src/config/audio.config.js`. -/
def WHATSAPP_SAMPLE_RATE : Nat := 48000

/-- `ELEVENLABS_INPUT_SAMPLE_RATE` from `src/config/audio.config.js`. -/
def ELEVENLABS_INPUT_SAMPLE_RATE : Nat := 16000

/-- `FRAME_SIZE` from `src/config/audio.config.js` (10 ms at 48 kHz). -/
def FRAME_SIZE : Nat := 480

/-- `CHUNK_SIZE` from `src/config/audio.config.js` (bytes per outbound chunk). -/
def CHUNK_SIZE : Nat := 4000

/-! ## Capture path (WhatsApp → ElevenLabs) -/

/-- The resampling step of `audioSink.ondata`: when `sampleRate === 48000`
and the ElevenLabs input rate is 16000, decimate by
`r = sampleRate / ELEVENLABS_INPUT_SAMPLE_RATE` taking
`samples[Math.floor(i * r) * channels]` for
`i < Math.floor(samples.length / r / channels)`; otherwise the samples are
passed through unchanged (the `else` branch: "No resampling needed or
different sample rate"). -/
def downsampleFrame (sampleRate channels : Nat) (samples : List Int) : List Int :=
  if sampleRate = 48000 ∧ ELEVENLABS_INPUT_SAMPLE_RATE = 16000 then
    let r := sampleRate / ELEVENLABS_INPUT_SAMPLE_RATE
    (List.range (samples.length / r / channels)).map
      (fun i => samples.getD (i * r * channels) 0)
  else
    samples

/-- Little-endian byte serialisation of one signed 16-bit sample
(`Buffer.from(resampledSamples.buffer)` views the Int16Array bytes). -/
def bytesOfSample (v : Int) : List Nat :=
  [((v.emod 65536).toNat) % 256, ((v.emod 65536).toNat) / 256]

/-- Byte serialisation of a sample list. -/
def bytesOfSamples (l : List Int) : List Nat :=
  l.flatMap bytesOfSample

/-- The accumulation step of `audioSink.ondata`:
`audioBuffer = Buffer.concat([audioBuffer, buffer]); if (audioBuffer.length
>= CHUNK_SIZE) { sendAudioToElevenLabs(audioBuffer); audioBuffer =
Buffer.alloc(0); }`. Returns the new accumulator and the list of chunks
handed to the sender (empty or a singleton). -/
def accumulateChunk (chunkSize : Nat) (acc bytes : List Nat) :
    List Nat × List (List Nat) :=
  let newAcc := acc ++ bytes
  if chunkSize ≤ newAcc.length then ([], [newAcc]) else (newAcc, [])

/-- Folding `accumulateChunk` over a sequence of byte appends, collecting
all emitted chunks in order. -/
def captureRun (chunkSize : Nat) (acc : List Nat) :
    List (List Nat) → List Nat × List (List Nat)
  | [] => (acc, [])
  | b :: bs =>
    ((captureRun chunkSize (accumulateChunk chunkSize acc b).1 bs).1,
     (accumulateChunk chunkSize acc b).2
       ++ (captureRun chunkSize (accumulateChunk chunkSize acc b).1 bs).2)

/-- The whole `audioSink.ondata` callback: if the ElevenLabs WebSocket is
not open (`!elevenLabsWs || readyState !== OPEN`) the callback returns at
once — nothing is accumulated and nothing is sent. Otherwise the frame is
downsampled, serialised, appended to the accumulator and flushed when the
accumulator reaches `CHUNK_SIZE` bytes. -/
def ondata (wsOpen : Bool) (sampleRate channels : Nat) (samples : List Int)
    (acc : List Nat) : List Nat × List (List Nat) :=
  if wsOpen then
    accumulateChunk CHUNK_SIZE acc (bytesOfSamples (downsampleFrame sampleRate channels samples))
  else
    (acc, [])

/-- `sendAudioToElevenLabs`: re-checks the WebSocket and sends the chunk
only while it is open; a closed socket drops the chunk (`return`). -/
def sendAudioToElevenLabs (wsOpen : Bool) (audioData : List Nat) : Option (List Nat) :=
  if wsOpen then some audioData else none

/-! ## Playback path (ElevenLabs → WhatsApp) -/

/-- State of the audio-playback module: `elevenLabsAudioBuffer` (the
Playback Buffer), `audioPlaybackTimer` (`some src` when an interval timer
is active, where `src` records whether `session.getAudioSource()` was
non-null when `startAudioPlayback` captured it) and the current presence
of an audio source in the session. -/
structure PlaybackState where
  buffer : List Int
  timer : Option Bool
  source : Bool
deriving DecidableEq

/-- `addToPlaybackBuffer(samples)`: append samples at the end of the
playback buffer. -/
def addToPlaybackBuffer (s : PlaybackState) (samples : List Int) : PlaybackState :=
  { s with buffer := s.buffer ++ samples }

/-- `startAudioPlayback()`: `if (audioPlaybackTimer) return;` — a no-op
while a timer is active; otherwise it captures `session.getAudioSource()`
and installs the 10 ms interval timer. -/
def startAudioPlayback (s : PlaybackState) : PlaybackState :=
  match s.timer with
  | some _ => s
  | none => { s with timer := some s.source }

/-- One firing of the interval callback installed by `startAudioPlayback`:
`if (!audioSource) return;` then, if the buffer holds at least `FRAME_SIZE`
samples, emit exactly the first `FRAME_SIZE` and drop them from the buffer;
else if the buffer is empty, clear the timer; else do nothing. Returns the
new state and the emitted frame, if any. -/
def playbackTick (s : PlaybackState) : PlaybackState × Option (List Int) :=
  match s.timer with
  | none => (s, none)
  | some src =>
    if src = false then (s, none)
    else if FRAME_SIZE ≤ s.buffer.length then
      ({ s with buffer := s.buffer.drop FRAME_SIZE }, some (s.buffer.take FRAME_SIZE))
    else if s.buffer.length = 0 then
      ({ s with timer := none }, none)
    else (s, none)

/-- `resetPlayback()`: clear the interval timer and empty the buffer. -/
def resetPlayback (s : PlaybackState) : PlaybackState :=
  { buffer := [], timer := none, source := s.source }

/-- Events driving the playback path: an ingest payload delivery (the
handler appends the samples and then calls `startAudioPlayback`, per
`handleElevenLabsAudio`), or one firing of the interval timer. -/
inductive PlaybackEvent where
  | append (samples : List Int)
  | tick
deriving DecidableEq

/-- One event step of the playback path. -/
def playbackStep (s : PlaybackState) : PlaybackEvent → PlaybackState × Option (List Int)
  | PlaybackEvent.append l => (startAudioPlayback (addToPlaybackBuffer s l), none)
  | PlaybackEvent.tick => playbackTick s

/-- Run a sequence of playback events, collecting emitted frames in order. -/
def playbackRun (s : PlaybackState) : List PlaybackEvent → PlaybackState × List (List Int)
  | [] => (s, [])
  | e :: es =>
    ((playbackRun (playbackStep s e).1 es).1,
     (playbackStep s e).2.toList ++ (playbackRun (playbackStep s e).1 es).2)

/-- The samples delivered by one event (the payload of an append). -/
def eventSamples : PlaybackEvent → List Int
  | PlaybackEvent.append l => l
  | PlaybackEvent.tick => []

/-- All samples delivered by a sequence of events, in delivery order. -/
def appendedOf (evs : List PlaybackEvent) : List Int :=
  (evs.map eventSamples).flatten

/-! ## Ingest handler (`src/handlers/elevenlabs.handler.js`) -/

/-- Decode one little-endian byte pair as a signed 16-bit sample
(the `Int16Array` view of the buffer). -/
def int16OfBytes (lo hi : Nat) : Int :=
  let v := lo % 256 + 256 * (hi % 256)
  if v < 32768 then (v : Int) else (v : Int) - 65536

/-- Decode a byte string as consecutive 16-bit samples; a dangling final
byte yields no sample (`Int16Array` length is `bytes / 2` floored). -/
def toSamples : List Nat → List Int
  | lo :: hi :: rest => int16OfBytes lo hi :: toSamples rest
  | _ => []

/-- `handleElevenLabsAudio` of `src/handlers/elevenlabs.handler.js`, PCM
part: if the payload byte length is odd, drop the trailing byte
(`pcmData.slice(0, pcmData.length - 1)`); if fewer than 2 bytes remain,
return with no effect; otherwise view the bytes as 16-bit samples and
append them to the playback buffer. Returns the new playback buffer. -/
def handleElevenLabsAudio (bytes : List Nat) (buf : List Int) : List Int :=
  let b := if bytes.length % 2 = 1 then bytes.dropLast else bytes
  if b.length < 2 then buf else buf ++ toSamples b

/-! ## Legacy upsampler (`server-elevenlabs.js`, `handleElevenLabsAudio`) -/

/-- JavaScript `Math.round`: round half away from zero upward, i.e.
`⌊q + 1/2⌋`. -/
def jsRound (q : ℚ) : Int := ⌊q + 1/2⌋

/-- Value of output slot `k` of the legacy upsampling loop with integer
step `r`: slots `k = i*r + j` with `i + 1 < input.length` hold
`Math.round(s[i] * (1-t) + s[i+1] * t)` for `t = j / r`; all later slots
keep the `Int16Array` zero initialisation (the loop never writes them). -/
def upsampleAt (r : Nat) (input : List Int) (k : Nat) : Int :=
  if k / r + 1 < input.length then
    jsRound ((((input.getD (k / r) 0 : Int) : ℚ) * ((r : ℚ) - ((k % r : Nat) : ℚ))
      + ((input.getD (k / r + 1) 0 : Int) : ℚ) * ((k % r : Nat) : ℚ)) / (r : ℚ))
  else 0

/-- The legacy upsampler of `server-elevenlabs.js`: the output
`Int16Array` is allocated with length `input.length * r` and the
interpolation loop fills the first `(input.length - 1) * r` slots. The
whole array (`samples48k`) is then emitted to the audio source. -/
def upsample (r : Nat) (input : List Int) : List Int :=
  (List.range (input.length * r)).map (upsampleAt r input)

/-! ## Helper lemmas -/

/-- Value of a range-map list at an in-bounds index. -/
theorem rangeMap_getD (n : Nat) (f : Nat → Int) (i : Nat) (h : i < n) :
    ((List.range n).map f).getD i 0 = f i := by
  rw [List.getD_eq_getElem?_getD, List.getElem?_map, List.getElem?_range h]
  rfl

/-- The decimating branch of `downsampleFrame` in closed range-map form. -/
theorem downsampleFrame_eq_rangeMap (channels : Nat) (samples : List Int) :
    downsampleFrame 48000 channels samples
      = (List.range (samples.length / 3 / channels)).map
          (fun i => samples.getD (i * 3 * channels) 0) := by
  simp [downsampleFrame, ELEVENLABS_INPUT_SAMPLE_RATE]

/-- One accumulation step leaves the accumulator strictly below any
positive chunk threshold. -/
theorem accumulateChunk_length_lt (chunkSize : Nat) (h : 0 < chunkSize)
    (acc bytes : List Nat) :
    (accumulateChunk chunkSize acc bytes).1.length < chunkSize := by
  simp only [accumulateChunk]
  split
  · simpa using h
  · next hc => exact Nat.lt_of_not_le hc

/-- The accumulator stays strictly below a positive chunk threshold over
any run of appends. -/
theorem captureRun_acc_lt (chunkSize : Nat) (h : 0 < chunkSize) :
    ∀ (appends : List (List Nat)) (acc : List Nat), acc.length < chunkSize →
      (captureRun chunkSize acc appends).1.length < chunkSize
  | [], _, hacc => hacc
  | b :: bs, acc, _ =>
    captureRun_acc_lt chunkSize h bs _ (accumulateChunk_length_lt chunkSize h acc b)

/-- `toSamples` decodes one sample per complete byte pair. -/
theorem toSamples_length : ∀ b : List Nat, (toSamples b).length = b.length / 2
  | [] => by simp [toSamples]
  | [_] => by simp [toSamples]
  | _ :: _ :: rest => by
    simp only [toSamples, List.length_cons, toSamples_length rest]
    omega

/-- `startAudioPlayback` never changes the buffer. -/
theorem startAudioPlayback_buffer (s : PlaybackState) :
    (startAudioPlayback s).buffer = s.buffer := by
  obtain ⟨buf, tm, sc⟩ := s
  cases tm <;> rfl

/-- Case analysis of one timer firing: either nothing is emitted and the
buffer is untouched, or exactly the first `FRAME_SIZE` buffered samples
are emitted and dropped. -/
theorem playbackTick_spec (s : PlaybackState) :
    ((playbackTick s).2 = none ∧ (playbackTick s).1.buffer = s.buffer)
    ∨ ((playbackTick s).2 = some (s.buffer.take FRAME_SIZE)
        ∧ FRAME_SIZE ≤ s.buffer.length
        ∧ (playbackTick s).1.buffer = s.buffer.drop FRAME_SIZE
        ∧ (playbackTick s).1.timer = s.timer) := by
  cases ht : s.timer with
  | none => left; simp [playbackTick, ht]
  | some src =>
    by_cases hsrc : src = false
    · left; simp [playbackTick, ht, hsrc]
    · by_cases hlen : FRAME_SIZE ≤ s.buffer.length
      · right; simp [playbackTick, ht, hsrc, hlen]
      · by_cases h0 : s.buffer.length = 0
        · left; simp [playbackTick, ht, hsrc, hlen, h0, FRAME_SIZE]
        · left; simp [playbackTick, ht, hsrc, hlen, h0]

/-- One playback event conserves samples: emitted frame followed by the
new buffer equals the old buffer followed by the delivered samples. -/
theorem playbackStep_conservation (s : PlaybackState) (e : PlaybackEvent) :
    ((playbackStep s e).2.toList).flatten ++ (playbackStep s e).1.buffer
      = s.buffer ++ eventSamples e := by
  cases e with
  | append l =>
    simp [playbackStep, eventSamples, startAudioPlayback_buffer, addToPlaybackBuffer]
  | tick =>
    simp only [playbackStep]
    rcases playbackTick_spec s with ⟨h1, h2⟩ | ⟨h1, _, h3, _⟩
    · rw [h1, h2]; simp [eventSamples]
    · rw [h1, h3]; simp [eventSamples, List.take_append_drop]

/-- Any frame emitted by one playback event has exactly `FRAME_SIZE`
samples. -/
theorem playbackStep_frames (s : PlaybackState) (e : PlaybackEvent) (f : List Int)
    (hf : (playbackStep s e).2 = some f) : f.length = FRAME_SIZE := by
  cases e with
  | append l => simp [playbackStep] at hf
  | tick =>
    simp only [playbackStep] at hf
    rcases playbackTick_spec s with ⟨h1, _⟩ | ⟨h1, h2, _, _⟩
    · rw [h1] at hf; cases hf
    · rw [h1] at hf
      have hfe : f = s.buffer.take FRAME_SIZE := (Option.some.inj hf).symm
      subst hfe
      rw [List.length_take]
      exact Nat.min_eq_left h2

/-- Sample conservation over a whole event trace. -/
theorem playbackRun_conservation :
    ∀ (evs : List PlaybackEvent) (s : PlaybackState),
      ((playbackRun s evs).2).flatten ++ (playbackRun s evs).1.buffer
        = s.buffer ++ appendedOf evs
  | [], s => by simp [playbackRun, appendedOf]
  | e :: es, s => by
    have hstep := playbackStep_conservation s e
    have ih := playbackRun_conservation es (playbackStep s e).1
    simp only [playbackRun]
    rw [List.flatten_append _ _, List.append_assoc, ih, ← List.append_assoc, hstep,
      List.append_assoc]
    simp [appendedOf]

/-- Every frame emitted over a trace has exactly `FRAME_SIZE` samples. -/
theorem playbackRun_frames :
    ∀ (evs : List PlaybackEvent) (s : PlaybackState) (f : List Int),
      f ∈ (playbackRun s evs).2 → f.length = FRAME_SIZE
  | [], _, f => by simp [playbackRun]
  | e :: es, s, f => by
    intro hf
    simp only [playbackRun, List.mem_append] at hf
    rcases hf with hf | hf
    · cases h : (playbackStep s e).2 with
      | none => rw [h] at hf; simp at hf
      | some g =>
        rw [h] at hf
        simp at hf
        subst hf
        exact playbackStep_frames s e f h
    · exact playbackRun_frames es _ f hf

/-- For a list of frames of uniform length `n`, the flattening of the
first `k` frames is the length-`n*k` prefix of the whole flattening. -/
theorem flatten_take_of_length (n : Nat) :
    ∀ (L : List (List Int)) (k : Nat), (∀ f ∈ L, f.length = n) → k ≤ L.length →
      (L.take k).flatten = L.flatten.take (n * k)
      ∧ (L.take k).flatten.length = n * k
  | _, 0, _, _ => by simp
  | [], k + 1, _, hk => by simp at hk
  | f :: L, k + 1, hall, hk => by
    have hf : f.length = n := hall f (by simp)
    have ih := flatten_take_of_length n L k (fun g hg => hall g (by simp [hg]))
      (by simpa using hk)
    constructor
    · rw [List.take_succ_cons, List.flatten_cons, List.flatten_cons,
        List.take_append_eq_append_take]
      have h1 : f.take (n * (k + 1)) = f :=
        List.take_of_length_le (by rw [hf, Nat.mul_succ]; omega)
      have h2 : n * (k + 1) - f.length = n * k := by rw [hf, Nat.mul_succ]; omega
      rw [h1, h2, ih.1]
    · rw [List.take_succ_cons, List.flatten_cons, List.length_append, hf, ih.2,
        Nat.mul_succ]
      exact Nat.add_comm _ _

/-! ## Claim theorems -/

/-- C3: Capture Accumulator invariant and flush behaviour — every capture
callback leaves the accumulator strictly below `CHUNK_SIZE` bytes; an
append that reaches the threshold flushes the entire accumulated buffer
exactly once and resets the accumulator; and with threshold 4 and three
2-byte appends, exactly one flush occurs, after the second append, leaving
only the third sample accumulated. -/
theorem capture_accumulator_invariant :
    (∀ (wsOpen : Bool) (sampleRate channels : Nat) (samples : List Int) (acc : List Nat),
        acc.length < CHUNK_SIZE →
        (ondata wsOpen sampleRate channels samples acc).1.length < CHUNK_SIZE)
    ∧ (∀ acc bytes : List Nat, CHUNK_SIZE ≤ (acc ++ bytes).length →
        accumulateChunk CHUNK_SIZE acc bytes = ([], [acc ++ bytes]))
    ∧ (∀ appends : List (List Nat),
        (captureRun CHUNK_SIZE [] appends).1.length < CHUNK_SIZE)
    ∧ captureRun 4 [] [[1, 2]] = ([1, 2], [])
    ∧ captureRun 4 [] [[1, 2], [3, 4]] = ([], [[1, 2, 3, 4]])
    ∧ captureRun 4 [] [[1, 2], [3, 4], [5, 6]] = ([5, 6], [[1, 2, 3, 4]]) := by
  have hpos : 0 < CHUNK_SIZE := by decide
  refine ⟨?_, ?_, ?_, by decide, by decide, by decide⟩
  · intro wsOpen sampleRate channels samples acc hacc
    cases wsOpen with
    | false => exact hacc
    | true =>
      show (accumulateChunk CHUNK_SIZE acc
        (bytesOfSamples (downsampleFrame sampleRate channels samples))).1.length < CHUNK_SIZE
      exact accumulateChunk_length_lt CHUNK_SIZE hpos acc _
  · intro acc bytes hlen
    simp only [accumulateChunk]
    rw [if_pos hlen]
  · intro appends
    exact captureRun_acc_lt CHUNK_SIZE hpos appends [] (by simpa using hpos)

/-- Witness for C3: a capture callback on a 1-sample frame keeps the
accumulator under the threshold, and an append reaching 4000 bytes flushes
the whole buffer. -/
theorem capture_accumulator_invariant_witness :
    (ondata true 48000 1 [1] []).1.length < CHUNK_SIZE
    ∧ accumulateChunk CHUNK_SIZE (List.replicate 3999 0) [7]
        = ([], [List.replicate 3999 0 ++ [7]]) :=
  ⟨capture_accumulator_invariant.1 true 48000 1 [1] [] (by decide),
   capture_accumulator_invariant.2.1 (List.replicate 3999 0) [7]
     (by rw [List.length_append, List.length_replicate]; decide)⟩

/-- C8: no outbound send while the ElevenLabs WebSocket is not open — a
capture callback with the socket closed returns at once, leaving the
accumulator untouched and sending nothing, and `sendAudioToElevenLabs`
drops its chunk when the socket is closed. -/
theorem no_send_while_closed :
    (∀ (sampleRate channels : Nat) (samples : List Int) (acc : List Nat),
        ondata false sampleRate channels samples acc = (acc, []))
    ∧ (∀ audioData : List Nat, sendAudioToElevenLabs false audioData = none) :=
  ⟨fun _ _ _ _ => rfl, fun _ => rfl⟩

/-- C6: odd-length and undersized inbound payloads — an odd-length payload
is handled exactly as its even-length truncation (the trailing byte is
dropped before interpretation), a 5-byte payload appends exactly 2 samples,
and a payload left with fewer than 2 bytes is discarded with no effect on
the playback buffer. -/
theorem odd_payload_truncation :
    (∀ (bytes : List Nat) (buf : List Int), bytes.length % 2 = 1 →
        handleElevenLabsAudio bytes buf = handleElevenLabsAudio bytes.dropLast buf)
    ∧ (∀ (bytes : List Nat) (buf : List Int), bytes.length = 5 →
        handleElevenLabsAudio bytes buf = buf ++ toSamples bytes.dropLast
        ∧ (handleElevenLabsAudio bytes buf).length = buf.length + 2)
    ∧ (∀ (bytes : List Nat) (buf : List Int), bytes.length < 2 →
        handleElevenLabsAudio bytes buf = buf) := by
  refine ⟨?_, ?_, ?_⟩
  · intro bytes buf h
    have hlen : bytes.dropLast.length = bytes.length - 1 := List.length_dropLast _
    have h2 : ¬ bytes.dropLast.length % 2 = 1 := by omega
    simp only [handleElevenLabsAudio, if_pos h, if_neg h2]
  · intro bytes buf h
    have h1 : bytes.length % 2 = 1 := by omega
    have hlen : bytes.dropLast.length = 4 := by rw [List.length_dropLast]; omega
    have heq : handleElevenLabsAudio bytes buf = buf ++ toSamples bytes.dropLast := by
      simp only [handleElevenLabsAudio, if_pos h1]
      rw [if_neg (by omega)]
    refine ⟨heq, ?_⟩
    rw [heq, List.length_append, toSamples_length, hlen]
  · intro bytes buf h
    by_cases hodd : bytes.length % 2 = 1
    · have hlen : bytes.dropLast.length = bytes.length - 1 := List.length_dropLast _
      simp only [handleElevenLabsAudio, if_pos hodd]
      rw [if_pos (by omega)]
    · simp only [handleElevenLabsAudio, if_neg hodd]
      rw [if_pos h]

/-- Witness for C6: a concrete 5-byte payload appends exactly the 2
decoded samples, and a 1-byte payload is discarded. -/
theorem odd_payload_truncation_witness :
    (handleElevenLabsAudio [10, 0, 20, 0, 99] []
        = ([] : List Int) ++ toSamples (([10, 0, 20, 0, 99] : List Nat).dropLast)
      ∧ (handleElevenLabsAudio [10, 0, 20, 0, 99] ([] : List Int)).length
          = ([] : List Int).length + 2)
    ∧ handleElevenLabsAudio [9] [] = ([] : List Int) :=
  ⟨odd_payload_truncation.2.1 [10, 0, 20, 0, 99] [] (by decide),
   odd_payload_truncation.2.2 [9] [] (by decide)⟩

/-- C4: downsampling is nearest-neighbor decimation — in the 48 kHz →
16 kHz branch the output has `⌊len / 3 / channels⌋` samples, output sample
`i` is exactly input sample `i * 3 * channels` (channel 0 of source frame
`i * 3`, an in-bounds index), and the mono input `[10,20,30,40,50,60]`
decimates to `[10,40]`. -/
theorem downsample_nearest_neighbor :
    (∀ (samples : List Int) (channels : Nat), 0 < channels →
      (downsampleFrame 48000 channels samples).length = samples.length / 3 / channels ∧
      ∀ i, i < samples.length / 3 / channels →
        i * 3 * channels < samples.length ∧
        (downsampleFrame 48000 channels samples).getD i 0
          = samples.getD (i * 3 * channels) 0)
    ∧ downsampleFrame 48000 1 [10, 20, 30, 40, 50, 60] = [10, 40] := by
  constructor
  · intro samples channels hch
    refine ⟨by rw [downsampleFrame_eq_rangeMap]; simp, ?_⟩
    intro i hi
    have hdd : samples.length / 3 / channels = samples.length / (3 * channels) :=
      Nat.div_div_eq_div_mul _ _ _
    have hmpos : 0 < 3 * channels := by omega
    have h1 : i + 1 ≤ samples.length / (3 * channels) := by omega
    have h2 : (i + 1) * (3 * channels) ≤ (samples.length / (3 * channels)) * (3 * channels) :=
      Nat.mul_le_mul_right _ h1
    have h3 : (samples.length / (3 * channels)) * (3 * channels) ≤ samples.length :=
      Nat.div_mul_le_self _ _
    have hb : i * 3 * channels < samples.length := by
      have hlt : i * (3 * channels) < (i + 1) * (3 * channels) :=
        Nat.mul_lt_mul_of_lt_of_le (Nat.lt_succ_self i) (le_refl _) hmpos
      calc i * 3 * channels = i * (3 * channels) := by ring
        _ < (i + 1) * (3 * channels) := hlt
        _ ≤ (samples.length / (3 * channels)) * (3 * channels) := h2
        _ ≤ samples.length := h3
    exact ⟨hb, by rw [downsampleFrame_eq_rangeMap, rangeMap_getD _ _ _ hi]⟩
  · decide

/-- Witness for C4 at `samples = [10,20,30,40,50,60]`, `channels = 1`,
`i = 1`. -/
theorem downsample_nearest_neighbor_witness :
    1 * 3 * 1 < ([10, 20, 30, 40, 50, 60] : List Int).length ∧
    (downsampleFrame 48000 1 [10, 20, 30, 40, 50, 60]).getD 1 0
      = ([10, 20, 30, 40, 50, 60] : List Int).getD (1 * 3 * 1) 0 :=
  (downsample_nearest_neighbor.1 [10, 20, 30, 40, 50, 60] 1 (by decide)).2 1 (by decide)

/-- C7 counterexample: at the non-integer rate pairing 44100 → 16000
(`44100 % 16000 ≠ 0`), the capture path raises no fatal condition at all —
the frame is processed per-frame: `downsampleFrame` passes the samples
through unchanged and `ondata` accumulates their bytes normally. -/
theorem no_fatal_rate_condition :
    44100 % ELEVENLABS_INPUT_SAMPLE_RATE ≠ 0
    ∧ downsampleFrame 44100 1 [1, 2, 3] = [1, 2, 3]
    ∧ ondata true 44100 1 [1, 2, 3] [] = ([1, 0, 2, 0, 3, 0], []) := by
  decide

/-- C7 amended: the code contains no rate-ratio validation and no fatal
`UnsupportedRateRatio` condition; whenever the frame's rate is not exactly
48000 the `else` branch passes the samples through unresampled, per-frame,
with no error. -/
theorem downsampleFrame_passthrough_of_rate_ne (sampleRate channels : Nat)
    (samples : List Int) (h : sampleRate ≠ 48000) :
    downsampleFrame sampleRate channels samples = samples := by
  simp [downsampleFrame, h]

/-- Witness for the amended C7 at rate 44100. -/
theorem downsampleFrame_passthrough_witness :
    downsampleFrame 44100 1 [1, 2, 3] = [1, 2, 3] :=
  downsampleFrame_passthrough_of_rate_ne 44100 1 [1, 2, 3] (by decide)

/-- C5 counterexample: for ratio 3 and input `[0, 300]` the legacy
upsampler emits `[0, 100, 200, 0, 0, 0]` — the dangling final input sample
produces three trailing zero samples (the unfilled tail of the allocated
`Int16Array`), not the claimed `[0, 100, 200]`. -/
theorem upsample_emits_trailing_zeros :
    upsample 3 [0, 300] = [0, 100, 200, 0, 0, 0]
    ∧ upsample 3 [0, 300] ≠ [0, 100, 200] := by
  have h : upsample 3 [0, 300] = [0, 100, 200, 0, 0, 0] := by
    norm_num [upsample, upsampleAt, jsRound, List.range_succ]
  exact ⟨h, by rw [h]; decide⟩

/-- C5 amended: the upsampled output has length `input.length * 3`; slot
`k` with `k/3 + 1 < input.length` holds the linear interpolation
`round((s[k/3] * (3 - k%3) + s[k/3+1] * (k%3)) / 3)` (that is
`round(s[i](1-t) + s[i+1]t)` at `t = j/3`), and every slot at or beyond
`(input.length - 1) * 3` is zero: the dangling final sample yields three
zero output samples rather than none. -/
theorem upsample_interpolation_with_zero_tail (input : List Int) :
    (upsample 3 input).length = input.length * 3
    ∧ (∀ k, k / 3 + 1 < input.length →
        (upsample 3 input).getD k 0
          = jsRound ((((input.getD (k / 3) 0 : Int) : ℚ) * ((3 : ℚ) - ((k % 3 : Nat) : ℚ))
              + ((input.getD (k / 3 + 1) 0 : Int) : ℚ) * ((k % 3 : Nat) : ℚ)) / (3 : ℚ)))
    ∧ (∀ k, ¬ k / 3 + 1 < input.length → k < input.length * 3 →
        (upsample 3 input).getD k 0 = 0) := by
  refine ⟨by simp [upsample], ?_, ?_⟩
  · intro k hk
    have hk3 : k < input.length * 3 := by omega
    rw [upsample, rangeMap_getD _ _ _ hk3, upsampleAt, if_pos hk]
    norm_num
  · intro k hk hk3
    rw [upsample, rangeMap_getD _ _ _ hk3, upsampleAt, if_neg hk]

/-- Witness for the amended C5 at `input = [0, 300]`, interpolated slot
`k = 1` and zero-tail slot `k = 5`. -/
theorem upsample_interpolation_with_zero_tail_witness :
    ((upsample 3 ([0, 300] : List Int)).getD 1 0
      = jsRound (((([0, 300] : List Int).getD 0 0 : ℚ) * ((3 : ℚ) - ((1 : Nat) : ℚ))
          + (([0, 300] : List Int).getD 1 0 : ℚ) * ((1 : Nat) : ℚ)) / (3 : ℚ)))
    ∧ (upsample 3 ([0, 300] : List Int)).getD 5 0 = 0 :=
  ⟨(upsample_interpolation_with_zero_tail [0, 300]).2.1 1 (by decide),
   (upsample_interpolation_with_zero_tail [0, 300]).2.2 5 (by decide) (by decide)⟩

/-- C1: strict FIFO ordering of the playback path — over any trace of
ingest deliveries and timer ticks from a fresh session state, the samples
in the first `k` emitted frames are exactly the first `k * FRAME_SIZE`
samples in delivery order (so no sample is emitted out of order and each
is consumed exactly once), and that much data had been appended. -/
theorem fifo_ordering (src : Bool) (evs : List PlaybackEvent) (k : Nat)
    (hk : k ≤ ((playbackRun ⟨[], none, src⟩ evs).2).length) :
    (((playbackRun ⟨[], none, src⟩ evs).2).take k).flatten
        = (appendedOf evs).take (FRAME_SIZE * k)
    ∧ FRAME_SIZE * k ≤ (appendedOf evs).length := by
  have hcons := playbackRun_conservation evs ⟨[], none, src⟩
  have hcons2 : ((playbackRun ⟨[], none, src⟩ evs).2).flatten
      ++ (playbackRun ⟨[], none, src⟩ evs).1.buffer = appendedOf evs := by
    simpa using hcons
  have hall : ∀ f ∈ (playbackRun ⟨[], none, src⟩ evs).2, f.length = FRAME_SIZE :=
    fun f hf => playbackRun_frames evs _ f hf
  have hjt := flatten_take_of_length FRAME_SIZE _ k hall hk
  have hlen480 : FRAME_SIZE * k ≤ ((playbackRun ⟨[], none, src⟩ evs).2).flatten.length := by
    conv_rhs => rw [← List.take_append_drop k ((playbackRun ⟨[], none, src⟩ evs).2)]
    rw [List.flatten_append, List.length_append, hjt.2]
    exact Nat.le_add_right _ _
  constructor
  · rw [hjt.1, ← hcons2, List.take_append_of_le_length hlen480]
  · rw [← hcons2, List.length_append]
    exact le_trans hlen480 (Nat.le_add_right _ _)

set_option maxRecDepth 100000 in
/-- Witness for C1: one 480-sample delivery followed by one tick emits
exactly that delivery as the first frame. -/
theorem fifo_ordering_witness :
    1 ≤ ((playbackRun ⟨[], none, true⟩
        [PlaybackEvent.append (List.replicate 480 7), PlaybackEvent.tick]).2).length
    ∧ ((((playbackRun ⟨[], none, true⟩
          [PlaybackEvent.append (List.replicate 480 7), PlaybackEvent.tick]).2).take 1).flatten
          = (appendedOf [PlaybackEvent.append (List.replicate 480 7),
              PlaybackEvent.tick]).take (FRAME_SIZE * 1)
        ∧ FRAME_SIZE * 1 ≤ (appendedOf [PlaybackEvent.append (List.replicate 480 7),
            PlaybackEvent.tick]).length) :=
  ⟨by decide,
   fifo_ordering true [PlaybackEvent.append (List.replicate 480 7), PlaybackEvent.tick] 1
     (by decide)⟩

/-- C2 counterexample: a tick that finds 1 sample (insufficient data) in
the buffer emits nothing but does NOT go idle — the timer stays active,
refuting "when insufficient data exists it emits nothing and goes idle". -/
theorem insufficient_data_stays_running :
    (playbackTick ⟨[7], some true, true⟩).2 = none
    ∧ (playbackTick ⟨[7], some true, true⟩).1.timer = some true := by
  decide

/-- C2 amended: every emission of the Pacing Engine is exactly the first
`FRAME_SIZE` buffered samples (never shorter, never padded, never
repeated); with fewer than `FRAME_SIZE` samples nothing is emitted; but
the engine goes idle only when the buffer is exactly empty at a tick, not
whenever data is insufficient. -/
theorem pacing_no_partial_frames (s : PlaybackState) :
    (∀ f, (playbackTick s).2 = some f →
        f = s.buffer.take FRAME_SIZE ∧ f.length = FRAME_SIZE
        ∧ FRAME_SIZE ≤ s.buffer.length
        ∧ (playbackTick s).1.buffer = s.buffer.drop FRAME_SIZE)
    ∧ (s.buffer.length < FRAME_SIZE → (playbackTick s).2 = none)
    ∧ (s.timer = some true → s.buffer.length = 0 → (playbackTick s).1.timer = none) := by
  refine ⟨?_, ?_, ?_⟩
  · intro f hf
    rcases playbackTick_spec s with ⟨h1, _⟩ | ⟨h1, h2, h3, _⟩
    · rw [h1] at hf; cases hf
    · rw [h1] at hf
      have hfe : f = s.buffer.take FRAME_SIZE := (Option.some.inj hf).symm
      subst hfe
      exact ⟨rfl, by rw [List.length_take]; exact Nat.min_eq_left h2, h2, h3⟩
  · intro hlt
    rcases playbackTick_spec s with ⟨h1, _⟩ | ⟨_, h2, _, _⟩
    · exact h1
    · omega
  · intro ht h0
    simp [playbackTick, ht, h0, FRAME_SIZE]

/-- Witness for the amended C2: with 1 buffered sample a tick emits
nothing; with an empty buffer a tick stops the timer. -/
theorem pacing_no_partial_frames_witness :
    (playbackTick ⟨[7], some true, true⟩).2 = none
    ∧ (playbackTick ⟨[], some true, true⟩).1.timer = none :=
  ⟨(pacing_no_partial_frames ⟨[7], some true, true⟩).2.1 (by decide),
   (pacing_no_partial_frames ⟨[], some true, true⟩).2.2 rfl rfl⟩

/-- C9: starting the Pacing Engine is idempotent — `startAudioPlayback`
returns at once when a timer is already active, so a double start yields a
state identical to a single start, and every subsequent event trace (hence
every tick and every emission) behaves identically. -/
theorem start_idempotent :
    (∀ s : PlaybackState,
        startAudioPlayback (startAudioPlayback s) = startAudioPlayback s)
    ∧ (∀ (s : PlaybackState) (evs : List PlaybackEvent),
        playbackRun (startAudioPlayback (startAudioPlayback s)) evs
          = playbackRun (startAudioPlayback s) evs) := by
  have h : ∀ s : PlaybackState,
      startAudioPlayback (startAudioPlayback s) = startAudioPlayback s := by
    intro s
    obtain ⟨buf, tm, sc⟩ := s
    cases tm <;> rfl
  exact ⟨h, fun s evs => by rw [h]⟩

/-- C10: the playback timer is cancelled only when the buffer is exactly
empty at a tick — a tick finding a nonzero residue below `FRAME_SIZE`
emits nothing and changes nothing (timer keeps running); a tick clears the
timer only from an empty buffer; and `resetPlayback` clears timer and
buffer. -/
theorem timer_persists_on_partial_buffer :
    (∀ s : PlaybackState, s.timer ≠ none → 0 < s.buffer.length →
        s.buffer.length < FRAME_SIZE → playbackTick s = (s, none))
    ∧ (∀ s : PlaybackState, (playbackTick s).1.timer = none →
        s.timer = none ∨ s.buffer = [])
    ∧ (∀ s : PlaybackState, (resetPlayback s).timer = none ∧ (resetPlayback s).buffer = []) := by
  refine ⟨?_, ?_, fun s => ⟨rfl, rfl⟩⟩
  · intro s ht h0 hlt
    cases htm : s.timer with
    | none => exact absurd htm ht
    | some src =>
      cases src with
      | false => simp [playbackTick, htm]
      | true =>
        have hn1 : ¬ FRAME_SIZE ≤ s.buffer.length := by omega
        have hn2 : ¬ s.buffer.length = 0 := by omega
        simp [playbackTick, htm, hn1, hn2]
  · intro s h
    cases htm : s.timer with
    | none => exact Or.inl rfl
    | some src =>
      by_cases hsrc : src = false
      · have heq : (playbackTick s).1.timer = s.timer := by
          simp [playbackTick, htm, hsrc]
        rw [heq, htm] at h
        exact Option.noConfusion h
      · by_cases hlen : FRAME_SIZE ≤ s.buffer.length
        · have heq : (playbackTick s).1.timer = s.timer := by
            simp [playbackTick, htm, hsrc, hlen]
          rw [heq, htm] at h
          exact Option.noConfusion h
        · by_cases h0 : s.buffer.length = 0
          · exact Or.inr (List.length_eq_zero.mp h0)
          · have heq : (playbackTick s).1.timer = s.timer := by
              simp [playbackTick, htm, hsrc, hlen, h0]
            rw [heq, htm] at h
            exact Option.noConfusion h

/-- Witness for C10: a 1-sample buffer leaves the tick a no-op with the
timer running; an empty buffer is the only way a tick cancels the timer. -/
theorem timer_persists_witness :
    playbackTick ⟨[9], some true, true⟩ = (⟨[9], some true, true⟩, none)
    ∧ ((⟨[], some true, true⟩ : PlaybackState).timer = none
        ∨ (⟨[], some true, true⟩ : PlaybackState).buffer = []) :=
  ⟨timer_persists_on_partial_buffer.1 ⟨[9], some true, true⟩ (by decide) (by decide) (by decide),
   timer_persists_on_partial_buffer.2.1 ⟨[], some true, true⟩ (by decide)⟩

end AudioBridge
